import Mathlib

/-!
Verification development for the Total reCrawl regex crawler
(src/recrawl.py).  The Python source is shallowly embedded below:

* a small backtracking regular-expression engine models the behavior of
  the CPython re module on the concrete patterns compiled by the source
  (greedy quantifiers, ordered alternation, word boundaries, capture
  groups, leftmost non-overlapping scanning as in re.findall);
* find_strings, find_phone_numbers, find_email_addresses, get_links,
  fetch_html and crawl are translated function by function from the
  source; external collaborators (the HTTP transport and the HTML anchor
  parser) are passed in as explicit function parameters, and the urllib
  helpers urlparse/urljoin are modelled for the http-style URL forms the
  crawler manipulates.
-/

set_option maxRecDepth 100000

/-- A character class: a set of inclusive character ranges, possibly
negated, as written inside regex brackets such as [A-Za-z0-9._%+-]. -/
structure CharClass where
  neg : Bool
  items : List (Char × Char)
deriving Repr, DecidableEq

/-- Membership of a character in a class, ignoring case flags. -/
def ccMatchBase (cc : CharClass) (c : Char) : Bool :=
  let inItems := cc.items.any (fun p => decide (p.1.toNat ≤ c.toNat) && decide (c.toNat ≤ p.2.toNat))
  if cc.neg then !inItems else inItems

/-- Membership of a character in a class; when ic is true the match is
case-insensitive, as under the re.IGNORECASE flag. -/
def ccMatch (ic : Bool) (cc : CharClass) (c : Char) : Bool :=
  ccMatchBase cc c || (ic && (ccMatchBase cc c.toLower || ccMatchBase cc c.toUpper))

/-- Abstract syntax of the regular-expression fragment used by the
source patterns: character classes, concatenation, ordered alternation,
greedy option, capture groups, greedy counted repetition of a character
class, and the word-boundary assertion. -/
inductive Regex where
  | eps
  | cls (cc : CharClass)
  | seq (a b : Regex)
  | alt (a b : Regex)
  | opt (r : Regex)
  | grp (idx : Nat) (r : Regex)
  | rep (cc : CharClass) (lo : Nat) (hi : Option Nat)
  | wordB
deriving Repr, DecidableEq

/-- One way a regex can match a prefix of the input: the consumed
characters, the group captures made, and the remaining input. -/
structure MRes where
  consumed : List Char
  groups : List (Nat × List Char)
  rest : List Char
deriving Repr, DecidableEq

/-- Character immediately to the left of the current position after some
characters have been consumed. -/
def lastOpt (prev : Option Char) (consumed : List Char) : Option Char :=
  match consumed.getLast? with
  | some c => some c
  | none => prev

/-- Word character in the sense of the regex \w and \b constructs
(ASCII fragment of the Python definition). -/
def isWordChar (c : Char) : Bool := c.isAlphanum || c = '_'

/-- Word-character test lifted to an optional character; the edge of the
string counts as a non-word character. -/
def isWordOpt : Option Char → Bool
  | some c => isWordChar c
  | none => false

/-- Backtracking matcher.  runR ic r prev s lists every way r can match
a prefix of s, in the order a backtracking engine such as CPython re
explores them: greedy quantifiers longest first, alternatives left to
right.  prev is the character just before s, used by word boundaries.
The head of the list is therefore the match re would produce. -/
def runR (ic : Bool) : Regex → Option Char → List Char → List MRes
  | .eps, _, s => [⟨[], [], s⟩]
  | .cls cc, _, s =>
    match s with
    | [] => []
    | c :: rest => if ccMatch ic cc c then [⟨[c], [], rest⟩] else []
  | .seq a b, prev, s =>
    (runR ic a prev s).flatMap (fun m1 =>
      (runR ic b (lastOpt prev m1.consumed) m1.rest).map (fun m2 =>
        ⟨m1.consumed ++ m2.consumed, m1.groups ++ m2.groups, m2.rest⟩))
  | .alt a b, prev, s => runR ic a prev s ++ runR ic b prev s
  | .opt r, prev, s => runR ic r prev s ++ [⟨[], [], s⟩]
  | .grp i r, prev, s =>
    (runR ic r prev s).map (fun m => ⟨m.consumed, m.groups ++ [(i, m.consumed)], m.rest⟩)
  | .rep cc lo hi, _, s =>
    let pre := s.takeWhile (ccMatch ic cc)
    let kmax := min pre.length (hi.getD pre.length)
    if lo ≤ kmax then
      (List.range (kmax + 1 - lo)).map (fun i => ⟨s.take (kmax - i), [], s.drop (kmax - i)⟩)
    else []
  | .wordB, prev, s => if isWordOpt prev != isWordOpt s.head? then [⟨[], [], s⟩] else []

/-- Leftmost non-overlapping scan, as performed by re.findall: at each
position try the pattern; on success emit the backtracking-preferred
match and continue after it (one position further when the match was
empty).  The fuel argument only bounds the recursion; every step either
ends the scan or consumes at least one input character, so the initial
fuel of length + 1 supplied by findall is never exhausted. -/
def scanAll (ic : Bool) (r : Regex) : Nat → Option Char → List Char → List MRes
  | 0, _, _ => []
  | fuel+1, prev, s =>
    match (runR ic r prev s).head? with
    | none =>
      match s with
      | [] => []
      | c :: rest => scanAll ic r fuel (some c) rest
    | some m =>
      match m.consumed with
      | [] =>
        match s with
        | [] => [m]
        | c :: rest => m :: scanAll ic r fuel (some c) rest
      | _ :: _ => m :: scanAll ic r fuel (lastOpt prev m.consumed) m.rest

/-- All matches of a pattern in a text, in scanning order; the model of
re.findall on the pattern r. -/
def findall (ic : Bool) (r : Regex) (text : List Char) : List MRes :=
  scanAll ic r (text.length + 1) none text

/-- Digit class, the regex \d (ASCII fragment). -/
def digitCC : CharClass := ⟨false, [('0', '9')]⟩

/-- Whitespace together with dot and hyphen: the class [\s.-] used as a
phone-number separator in the source. -/
def sepCC : CharClass :=
  ⟨false, [(' ', ' '), ('\t', '\t'), ('\n', '\n'), ('\x0b', '\x0b'), ('\x0c', '\x0c'),
    ('\r', '\r'), ('.', '.'), ('-', '-')]⟩

/-- Class holding only the plus sign. -/
def plusCC : CharClass := ⟨false, [('+', '+')]⟩

/-- Class holding only an opening parenthesis. -/
def lparCC : CharClass := ⟨false, [('(', '(')]⟩

/-- Class holding only a closing parenthesis. -/
def rparCC : CharClass := ⟨false, [(')', ')')]⟩

/-- Class holding only the at sign. -/
def atCC : CharClass := ⟨false, [('@', '@')]⟩

/-- Class holding only the dot. -/
def dotCC : CharClass := ⟨false, [('.', '.')]⟩

/-- Local-part class of the email scan pattern: [A-Za-z0-9._%+-]. -/
def localCC : CharClass :=
  ⟨false, [('A', 'Z'), ('a', 'z'), ('0', '9'), ('.', '.'), ('_', '_'), ('%', '%'),
    ('+', '+'), ('-', '-')]⟩

/-- Domain class of the email patterns: [A-Za-z0-9.-]. -/
def domCC : CharClass :=
  ⟨false, [('A', 'Z'), ('a', 'z'), ('0', '9'), ('.', '.'), ('-', '-')]⟩

/-- Top-level-domain class of the email scan pattern, [A-Z|a-z]; note
that the source class literally contains the pipe character. -/
def tldScanCC : CharClass := ⟨false, [('A', 'Z'), ('|', '|'), ('a', 'z')]⟩

/-- Top-level-domain class of the email validation pattern, [a-zA-Z]. -/
def tldValCC : CharClass := ⟨false, [('a', 'z'), ('A', 'Z')]⟩

/-- The phone-number pattern compiled in find_phone_numbers:
(\+?\d\x7b1,3\x7d[\s.-]?)? (\(?\d\x7b3\x7d\)?[\s.-]?)?
(\d\x7b3\x7d[\s.-]?\d\x7b4\x7d|\d\x7b7\x7d|\d\x7b10,11\x7d),
three capture groups, the first two optional. -/
def phoneRegex : Regex :=
  .seq (.opt (.grp 1 (.seq (.rep plusCC 0 (some 1))
    (.seq (.rep digitCC 1 (some 3)) (.rep sepCC 0 (some 1))))))
  (.seq (.opt (.grp 2 (.seq (.rep lparCC 0 (some 1))
    (.seq (.rep digitCC 3 (some 3)) (.seq (.rep rparCC 0 (some 1)) (.rep sepCC 0 (some 1)))))))
  (.grp 3 (.alt
    (.seq (.rep digitCC 3 (some 3)) (.seq (.rep sepCC 0 (some 1)) (.rep digitCC 4 (some 4))))
    (.alt (.rep digitCC 7 (some 7)) (.rep digitCC 10 (some 11))))))

/-- The email scan pattern compiled in find_email_addresses:
\b[A-Za-z0-9._%+-]+@[A-Za-z0-9.-]+\.[A-Z|a-z]\x7b2,\x7d\b. -/
def emailScanRegex : Regex :=
  .seq .wordB (.seq (.rep localCC 1 none) (.seq (.cls atCC)
    (.seq (.rep domCC 1 none) (.seq (.cls dotCC) (.seq (.rep tldScanCC 2 none) .wordB)))))

/-- The anchored email validation pattern of find_email_addresses,
^[a-zA-Z0-9._%+-]+@[a-zA-Z0-9.-]+\.[a-zA-Z]\x7b2,\x7d$ without its
anchors; the anchoring itself is applied by reMatchFull. -/
def emailValRegex : Regex :=
  .seq (.rep localCC 1 none) (.seq (.cls atCC)
    (.seq (.rep domCC 1 none) (.seq (.cls dotCC) (.rep tldValCC 2 none))))

/-- Model of re.match against a pattern of the form ^...$: does some way
of matching r from the start of s consume all of s. -/
def reMatchFull (r : Regex) (s : String) : Bool :=
  (runR false r none s.toList).any (fun m => m.rest.isEmpty)

/-- Capture of group i in a match, the empty capture when the group did
not participate; each group index occurs at most once in the patterns
above, matching how Python joins a findall tuple. -/
def groupGet (m : MRes) (i : Nat) : List Char :=
  ((m.groups.find? (fun g => g.1 = i)).map (fun g => g.2)).getD []

/-- Insertion into a Python-set model kept as an order-stable
duplicate-free list. -/
def insertNew (xs : List String) (x : String) : List String :=
  if x ∈ xs then xs else xs ++ [x]

/-- Number of digit characters of a string: the length of
re.sub applied with pattern \D and replacement empty, as used by the
source to count digits of a candidate phone number. -/
def digitLen (s : String) : Nat := (s.toList.filter Char.isDigit).length

/-- Embedding of find_phone_numbers: findall with the phone pattern,
joining each group tuple, keeping candidates whose digit count is 10 or
11, deduplicated as a set. -/
def find_phone_numbers (html : String) : List String :=
  let found := findall false phoneRegex html.toList
  found.foldl (fun valid_numbers m =>
    let phone_number := String.mk (groupGet m 1 ++ groupGet m 2 ++ groupGet m 3)
    if digitLen phone_number = 10 ∨ digitLen phone_number = 11 then
      insertNew valid_numbers phone_number
    else valid_numbers) []

/-- Embedding of find_email_addresses: findall with the scan pattern,
re-validating each candidate with the anchored pattern, deduplicated as
a set. -/
def find_email_addresses (html : String) : List String :=
  let found := findall false emailScanRegex html.toList
  found.foldl (fun valid_emails m =>
    let email := String.mk m.consumed
    if reMatchFull emailValRegex email then insertNew valid_emails email
    else valid_emails) []

/-- Word class, the regex \w (ASCII fragment). -/
def wordCC : CharClass := ⟨false, [('a', 'z'), ('A', 'Z'), ('0', '9'), ('_', '_')]⟩

/-- Whitespace class, the regex \s (ASCII fragment). -/
def spaceCC : CharClass :=
  ⟨false, [(' ', ' '), ('\t', '\t'), ('\n', '\n'), ('\x0b', '\x0b'), ('\x0c', '\x0c'),
    ('\r', '\r')]⟩

/-- Class of the regex dot: any character except newline. -/
def anyCC : CharClass := ⟨true, [('\n', '\n')]⟩

/-- An atom produced by the pattern compiler: either a character class,
to which a quantifier may be attached, or a zero-width assertion. -/
inductive PAtom where
  | pcls (cc : CharClass)
  | passert (r : Regex)
deriving Repr

/-- Meaning of an escape sequence outside a character set. -/
def escAtom (c : Char) : Except String PAtom :=
  if c = 'd' then .ok (.pcls digitCC)
  else if c = 'D' then .ok (.pcls ⟨true, digitCC.items⟩)
  else if c = 's' then .ok (.pcls spaceCC)
  else if c = 'S' then .ok (.pcls ⟨true, spaceCC.items⟩)
  else if c = 'w' then .ok (.pcls wordCC)
  else if c = 'W' then .ok (.pcls ⟨true, wordCC.items⟩)
  else if c = 'b' then .ok (.passert .wordB)
  else if c.isAlphanum then .error "bad escape"
  else .ok (.pcls ⟨false, [(c, c)]⟩)

/-- Meaning of an escape sequence inside a character set, as a list of
ranges to merge into the set. -/
def classEsc (c : Char) : Except String (List (Char × Char)) :=
  if c = 'd' then .ok digitCC.items
  else if c = 's' then .ok spaceCC.items
  else if c = 'w' then .ok wordCC.items
  else if c.isAlphanum then .error "bad escape in character set"
  else .ok [(c, c)]

/-- Items of a character set up to the closing bracket.  A closing
bracket as the very first item is a literal, as in Python; a missing
closing bracket is the unterminated-character-set error re.compile
raises. -/
def parseClassItems : List Char → Bool → Except String (List (Char × Char) × List Char)
  | [], _ => .error "unterminated character set"
  | ']' :: rest, first =>
    if first then
      match parseClassItems rest false with
      | .ok (items, rest2) => .ok ((']', ']') :: items, rest2)
      | .error e => .error e
    else .ok ([], rest)
  | ['\\'], _ => .error "bad escape at end of character set"
  | '\\' :: e :: rest, _ =>
    match classEsc e with
    | .ok its =>
      match parseClassItems rest false with
      | .ok (items, rest2) => .ok (its ++ items, rest2)
      | .error er => .error er
    | .error er => .error er
  | c :: '-' :: d :: rest, _ =>
    if d = ']' then .ok ([(c, c), ('-', '-')], rest)
    else if d = '\\' then .error "escaped range endpoint not in modelled subset"
    else if decide (c.toNat ≤ d.toNat) then
      match parseClassItems rest false with
      | .ok (items, rest2) => .ok ((c, d) :: items, rest2)
      | .error er => .error er
    else .error "bad character range"
  | c :: rest, _ =>
    match parseClassItems rest false with
    | .ok (items, rest2) => .ok ((c, c) :: items, rest2)
    | .error er => .error er

/-- One atom of a pattern.  Patterns that re.compile rejects are
rejected here with the corresponding error (lone open parenthesis,
lone quantifier, unbalanced close parenthesis, dangling escape);
constructs outside the modelled subset (groups, anchors, counted
repetition braces) are rejected as unsupported rather than modelled. -/
def parseAtom : List Char → Except String (PAtom × List Char)
  | [] => .error "empty pattern atom"
  | '(' :: _ => .error "missing ), unterminated subpattern"
  | ')' :: _ => .error "unbalanced parenthesis"
  | '?' :: _ => .error "nothing to repeat"
  | '*' :: _ => .error "nothing to repeat"
  | '+' :: _ => .error "nothing to repeat"
  | '^' :: _ => .error "anchor not in modelled subset"
  | '$' :: _ => .error "anchor not in modelled subset"
  | '[' :: rest =>
    match rest with
    | '^' :: rest2 =>
      match parseClassItems rest2 true with
      | .ok (items, rest3) => .ok (.pcls ⟨true, items⟩, rest3)
      | .error e => .error e
    | _ =>
      match parseClassItems rest true with
      | .ok (items, rest3) => .ok (.pcls ⟨false, items⟩, rest3)
      | .error e => .error e
  | ['\\'] => .error "bad escape at end of pattern"
  | '\\' :: e :: rest =>
    match escAtom e with
    | .ok a => .ok (a, rest)
    | .error er => .error er
  | '.' :: rest => .ok (.pcls anyCC, rest)
  | c :: rest =>
    if c.toNat = 123 || c.toNat = 125 then .error "counted repetition not in modelled subset"
    else .ok (.pcls ⟨false, [(c, c)]⟩, rest)

/-- Concatenation of a list of parsed atoms. -/
def foldSeq : List Regex → Regex
  | [] => .eps
  | [r] => r
  | r :: rs => .seq r (foldSeq rs)

/-- Is this character one of the quantifier characters. -/
def isQuant (c : Char) : Bool := c = '?' || c = '+' || c = '*'

/-- A sequence of atoms with their quantifiers, up to a top-level
alternation bar or the end of the pattern.  The fuel is only a recursion
bound; every step consumes at least one character, so the initial fuel
of length + 1 is never exhausted. -/
def parseSeq : Nat → List Char → List Regex → Except String (Regex × List Char)
  | 0, _, _ => .error "pattern too deep for the modelled parser"
  | fuel+1, cs, acc =>
    match cs with
    | [] => .ok (foldSeq acc.reverse, [])
    | '|' :: _ => .ok (foldSeq acc.reverse, cs)
    | _ =>
      match parseAtom cs with
      | .error e => .error e
      | .ok (.passert r, rest) =>
        match rest with
        | q :: _ =>
          if isQuant q then .error "quantified assertion not in modelled subset"
          else parseSeq fuel rest (r :: acc)
        | _ => parseSeq fuel rest (r :: acc)
      | .ok (.pcls cc, rest) =>
        match rest with
        | '?' :: rest2 =>
          if (rest2.head?.map isQuant).getD false then .error "multiple repeat not in modelled subset"
          else parseSeq fuel rest2 (Regex.rep cc 0 (some 1) :: acc)
        | '+' :: rest2 =>
          if (rest2.head?.map isQuant).getD false then .error "multiple repeat not in modelled subset"
          else parseSeq fuel rest2 (Regex.rep cc 1 none :: acc)
        | '*' :: rest2 =>
          if (rest2.head?.map isQuant).getD false then .error "multiple repeat not in modelled subset"
          else parseSeq fuel rest2 (Regex.rep cc 0 none :: acc)
        | _ => parseSeq fuel rest (Regex.cls cc :: acc)

/-- Top-level alternation.  The fuel is a recursion bound as in
parseSeq. -/
def parseAlt : Nat → List Char → Except String Regex
  | 0, _ => .error "pattern too deep for the modelled parser"
  | fuel+1, cs =>
    match parseSeq (cs.length + 1) cs [] with
    | .error e => .error e
    | .ok (r, []) => .ok r
    | .ok (r1, '|' :: rest) =>
      match parseAlt fuel rest with
      | .ok r2 => .ok (Regex.alt r1 r2)
      | .error e => .error e
    | .ok (_, _ :: _) => .error "unexpected trailing characters"

/-- Model of re.compile on the pattern subset described at parseAtom:
an invalid pattern yields the error re.error would carry, a pattern
outside the subset yields an unsupported-construct error, and an
accepted pattern yields a Regex whose match semantics agree with re. -/
def compile (search_string : String) : Except String Regex :=
  parseAlt (search_string.length + 1) search_string.toList

/-- Embedding of find_strings: re.findall of the user pattern over the
page text under re.IGNORECASE.  A pattern re.compile rejects makes the
Python call raise re.error before any text is scanned; that raised
error is the .error branch here.  Patterns with capture groups, for
which findall would return the captures instead of the whole match, lie
outside the compiled subset, so .ok results are always whole matches,
duplicates preserved in first-occurrence order. -/
def find_strings (html : String) (search_string : String) : Except String (List String) :=
  match compile search_string with
  | .error e => .error e
  | .ok r => .ok ((findall true r html.toList).map (fun m => String.mk m.consumed))

/-- Split scheme://rest at the first occurrence of the :// separator.
This models the scheme recognition the urllib helpers perform on the
absolute http-style URLs the crawler manipulates. -/
def splitScheme : List Char → Option (List Char × List Char)
  | ':' :: '/' :: '/' :: rest => some ([], rest)
  | c :: rest =>
    match splitScheme rest with
    | some p => some (c :: p.1, p.2)
    | none => none
  | [] => none

/-- Characters of the authority component: everything up to the first
slash, question mark or hash. -/
def netlocChars (s : List Char) : List Char :=
  s.takeWhile (fun c => !(c = '/' || c = '?' || c = '#'))

/-- Modelled from the external urllib collaborator: urlparse(url).netloc
for URLs of the form scheme://host/path as built by the crawler; a
reference without a scheme has an empty netloc. -/
def netloc (url : String) : String :=
  match splitScheme url.toList with
  | some p => String.mk (netlocChars p.2)
  | none => ""

/-- Directory prefix of a path: everything up to and including the last
slash, or the root slash when the path has none. -/
def dropAfterLastSlash (path : List Char) : List Char :=
  let d := (path.reverse.dropWhile (fun c => !(c = '/'))).reverse
  if d.isEmpty then ['/'] else d

/-- Modelled from the external urllib collaborator: urljoin(base, url)
for the http-style forms the crawler exercises.  A reference carrying
its own scheme is returned unchanged; a scheme-relative, host-relative
or path-relative reference is resolved against the base URL.  Query
strings, fragments and dot segments are outside the modelled forms. -/
def urljoin (base url : String) : String :=
  if (splitScheme url.toList).isSome then url
  else
    match splitScheme base.toList with
    | none => url
    | some p =>
      let scheme := String.mk p.1
      let host := netlocChars p.2
      let path := p.2.drop host.length
      match url.toList with
      | [] => base
      | '/' :: '/' :: _ => scheme ++ ":" ++ url
      | '/' :: _ => scheme ++ "://" ++ String.mk host ++ url
      | _ => scheme ++ "://" ++ String.mk host ++ String.mk (dropAfterLastSlash path) ++ url

/-- Embedding of get_links.  The BeautifulSoup anchor scan is the
external HTML-parsing collaborator, passed in as ext, which returns the
href attribute of every anchor of a page in document order.  Each href
is resolved against the base_url argument and kept when external links
are allowed or its host equals the base host; the Python set of links
is modelled as an insertion-ordered duplicate-free list. -/
def get_links (ext : String → List String) (html : String) (base_url : String)
    (follow_external : Bool) : List String :=
  let base_domain := netloc base_url
  (ext html).foldl (fun links href =>
    let full_url := urljoin base_url href
    let link_domain := netloc full_url
    if follow_external || link_domain = base_domain then insertNew links full_url
    else links) []

/-- Embedding of fetch_html.  The HTTP transport is the external world
w, mapping a URL to the body text of a successful response, or to none
when the request fails (network error or a status raise_for_status
rejects).  On failure the source logs and returns the empty string, so
a successful empty body and a failed fetch produce the same value. -/
def fetch_html (w : String → Option String) (url : String) : String :=
  match w url with
  | some text => text
  | none => ""

/-- Kinds of findings the crawler reports. -/
inductive FKind where
  | phone
  | email
  | pattern
deriving Repr, DecidableEq

/-- One reported finding: the page it was found on, its kind, and the
extracted values. -/
structure Finding where
  url : String
  kind : FKind
  values : List String
deriving Repr, DecidableEq

/-- State of one crawl run: the visited set, the log of fetches
performed (with the remaining depth at fetch time), and the findings
reported so far. -/
structure CrawlState where
  visited : List String
  fetches : List (String × Nat)
  findings : List Finding
deriving Repr, DecidableEq

/-- Append one reported finding. -/
def addFinding (st : CrawlState) (url : String) (kind : FKind) (values : List String) :
    CrawlState :=
  { st with findings := st.findings ++ [⟨url, kind, values⟩] }

/-- Extraction-and-reporting block of the crawl body, source lines 149
to 165: the phone report (including the redundant second digit-count
filter of line 153), the email report, and the search-string report.
When find_strings raises re.error on an invalid pattern the Python
exception propagates out of crawl; that is the some branch of the
second component, freezing the state reached so far. -/
def crawlExtract (phone email : Bool) (search_string : Option String) (url html : String)
    (st2 : CrawlState) : CrawlState × Option String :=
  let st3 :=
    if phone then
      let phone_numbers := find_phone_numbers html
      if phone_numbers ≠ [] then
        let filtered := phone_numbers.filter (fun n => digitLen n == 10 || digitLen n == 11)
        if filtered ≠ [] then addFinding st2 url FKind.phone filtered else st2
      else st2
    else st2
  let st4 :=
    if email then
      let email_addresses := find_email_addresses html
      if email_addresses ≠ [] then addFinding st3 url FKind.email email_addresses else st3
    else st3
  match search_string with
  | none => (st4, none)
  | some s =>
    if s = "" then (st4, none)
    else
      match find_strings html s with
      | .error e => (st4, some e)
      | .ok instances =>
        ((if instances ≠ [] then addFinding st4 url FKind.pattern instances else st4), none)

/-- Embedding of the recursive crawl function.  Parameters mirror the
source: ext and w are the external collaborators, base_url the seed
passed unchanged to every recursive call, and the remaining arguments
the crawl configuration.  The per-call arguments are the remaining
depth, the search string, the URL of this task and the state.  The
children loop passes depth - 1 and, as in the source line that omits
the argument, no search string; a raised re.error skips the loop and
propagates, as the uncaught Python exception would. -/
def crawlGo (ext : String → List String) (w : String → Option String) (base_url : String)
    (follow_external phone email : Bool) :
    Nat → Option String → String → CrawlState → CrawlState × Option String
  | 0, _, _, st => (st, none)
  | depth+1, search_string, url, st =>
    if url ∈ st.visited then (st, none)
    else
      let st1 : CrawlState := { st with visited := url :: st.visited }
      let html := fetch_html w url
      let st2 : CrawlState := { st1 with fetches := st1.fetches ++ [(url, depth + 1)] }
      if html = "" then (st2, none)
      else
        match crawlExtract phone email search_string url html st2 with
        | (st5, some e) => (st5, some e)
        | (st5, none) =>
          (get_links ext html base_url follow_external).foldl
            (fun acc link =>
              match acc with
              | (sAcc, some e) => (sAcc, some e)
              | (sAcc, none) =>
                crawlGo ext w base_url follow_external phone email depth none link sAcc)
            (st5, none)

/-- Embedding of a whole crawl run: the source entry point starts with
the module-level empty visited set and the configured depth. -/
def crawl (ext : String → List String) (w : String → Option String) (url base_url : String)
    (depth : Nat) (follow_external phone email : Bool) (search_string : Option String) :
    CrawlState × Option String :=
  crawlGo ext w base_url follow_external phone email depth search_string url ⟨[], [], []⟩

/-- Pointwise update of an HTTP world at one URL. -/
def wUpdate (w : String → Option String) (url : String) (v : Option String) :
    String → Option String :=
  fun u => if u = url then v else w u

/-- Anchor lists of the spec scenario pages: the seed page A0 links to
p1 twice and to p2 once; the child pages link onward to q1 and q2. -/
def extC3 : String → List String := fun h =>
  if h = "A0" then ["https://a.com/p1", "https://a.com/p1", "https://a.com/p2"]
  else if h = "A1" then ["https://a.com/q1"]
  else if h = "A2" then ["https://a.com/q2"]
  else []

/-- HTTP world of the spec scenario: every page of a.com responds. -/
def wC3 : String → Option String := fun u =>
  if u = "https://a.com/" then some "A0"
  else if u = "https://a.com/p1" then some "A1"
  else if u = "https://a.com/p2" then some "A2"
  else if u = "https://a.com/q1" then some "B1"
  else if u = "https://a.com/q2" then some "B2"
  else none

/-- Anchor lists of the relative-resolution scenario: the seed page
links to the page at /sub/p, whose own page H1 carries the relative
reference x. -/
def extC4 : String → List String := fun h =>
  if h = "H0" then ["https://a.com/sub/p"]
  else if h = "H1" then ["x"]
  else []

/-- HTTP world of the relative-resolution scenario: both candidate
resolutions of the reference x respond, so which one is fetched is
decided by the resolver alone. -/
def wC4 : String → Option String := fun u =>
  if u = "https://a.com/" then some "H0"
  else if u = "https://a.com/sub/p" then some "H1"
  else if u = "https://a.com/x" then some "H2"
  else if u = "https://a.com/sub/x" then some "H2x"
  else none

/-- Anchor list of the search-string scenario: the seed page links to
one child page. -/
def extC5 : String → List String := fun h =>
  if h = "S0" then ["https://s.com/c"] else []

/-- HTTP world of the search-string scenario: the seed page text S0
does not contain the search string foo, the child page text does. -/
def wC5 : String → Option String := fun u =>
  if u = "https://s.com/" then some "S0"
  else if u = "https://s.com/c" then some "S1 foo S1"
  else none

/-- Anchor list of the link-filtering example: one page with one
external and one internal reference. -/
def extC9 : String → List String := fun h =>
  if h = "page" then ["https://b.com/x", "https://a.com/y"] else []

/-! Helper lemmas shared by the claim theorems. -/

/-- Membership after a set insertion. -/
theorem mem_insertNew {xs : List String} {x y : String} :
    y ∈ insertNew xs x ↔ y ∈ xs ∨ y = x := by
  unfold insertNew
  split
  · rename_i hx
    constructor
    · exact Or.inl
    · rintro (hy | rfl)
      · exact hy
      · exact hx
  · simp

/-- Set insertion keeps the list duplicate-free. -/
theorem nodup_insertNew {xs : List String} {x : String} (h : xs.Nodup) :
    (insertNew xs x).Nodup := by
  unfold insertNew
  split
  · exact h
  · rename_i hx
    simp [List.nodup_append, h, hx]

/-- A property preserved by each step of a fold is preserved by the
whole fold. -/
theorem foldl_preserve {α β : Type} {P : β → Prop} (f : β → α → β)
    (hstep : ∀ b a, P b → P (f b a)) :
    ∀ (l : List α) (b : β), P b → P (l.foldl f b)
  | [], _, hb => hb
  | a :: t, b, hb => foldl_preserve f hstep t (f b a) (hstep b a hb)

/-- The extraction block only appends findings: the visited set is
unchanged. -/
theorem crawlExtract_visited (phone email : Bool) (ss : Option String) (url html : String)
    (st2 : CrawlState) : (crawlExtract phone email ss url html st2).1.visited = st2.visited := by
  unfold crawlExtract addFinding
  dsimp only
  repeat' split
  all_goals rfl

/-- The extraction block only appends findings: the fetch log is
unchanged. -/
theorem crawlExtract_fetches (phone email : Bool) (ss : Option String) (url html : String)
    (st2 : CrawlState) : (crawlExtract phone email ss url html st2).1.fetches = st2.fetches := by
  unfold crawlExtract addFinding
  dsimp only
  repeat' split
  all_goals rfl

/-- A property of the crawl state preserved by every child call is
preserved by the children loop of the crawl body. -/
theorem crawlFold_preserve (ext : String → List String) (w : String → Option String)
    (base_url : String) (fe ph em : Bool) (d : Nat) (P : CrawlState → Prop)
    (hstep : ∀ (link : String) (s : CrawlState), P s →
      P ((crawlGo ext w base_url fe ph em d none link s).1)) :
    ∀ (links : List String) (acc : CrawlState × Option String), P acc.1 →
      P ((links.foldl (fun acc link =>
        match acc with
        | (sAcc, some e) => (sAcc, some e)
        | (sAcc, none) => crawlGo ext w base_url fe ph em d none link sAcc) acc).1)
  | [], _, hacc => hacc
  | l :: t, acc, hacc => by
    rw [List.foldl_cons]
    apply crawlFold_preserve ext w base_url fe ph em d P hstep t
    obtain ⟨s, e⟩ := acc
    cases e with
    | none => exact hstep l s hacc
    | some e2 => exact hacc

/-- The visited set is append-only: every URL visited before a call of
the crawl body is still visited after it. -/
theorem crawlGo_visited_mono (ext : String → List String) (w : String → Option String)
    (base_url : String) (fe ph em : Bool) :
    ∀ (d : Nat) (ss : Option String) (url : String) (st : CrawlState),
      st.visited ⊆ (crawlGo ext w base_url fe ph em d ss url st).1.visited := by
  intro d
  induction d with
  | zero => intro ss url st; exact fun a ha => ha
  | succ d ih =>
    intro ss url st
    rw [crawlGo]
    by_cases hv : url ∈ st.visited
    · rw [if_pos hv]
      exact fun a ha => ha
    · rw [if_neg hv]
      dsimp only
      split
      · exact List.subset_cons_self _ _
      · split
        · rename_i st5 e5 heq
          have hvis := crawlExtract_visited ph em ss url (fetch_html w url)
            { st with visited := url :: st.visited,
                      fetches := st.fetches ++ [(url, d + 1)] }
          rw [heq] at hvis
          intro a ha
          rw [hvis]
          exact List.mem_cons_of_mem _ ha
        · rename_i st5 heq
          have hvis := crawlExtract_visited ph em ss url (fetch_html w url)
            { st with visited := url :: st.visited,
                      fetches := st.fetches ++ [(url, d + 1)] }
          rw [heq] at hvis
          apply crawlFold_preserve ext w base_url fe ph em d
            (fun s => st.visited ⊆ s.visited)
            (fun link s hs => List.Subset.trans hs (ih none link s))
          intro a ha
          rw [hvis]
          exact List.mem_cons_of_mem _ ha

/-- Fetched-once invariant of the crawl body: when the fetch log has no
duplicate URLs and every logged URL is visited, the same holds after
the call; the new log entry is possible only for a URL that was not yet
visited, hence not yet logged. -/
theorem crawlGo_inv (ext : String → List String) (w : String → Option String)
    (base_url : String) (fe ph em : Bool) :
    ∀ (d : Nat) (ss : Option String) (url : String) (st : CrawlState),
      (st.fetches.map Prod.fst).Nodup ∧ (∀ p ∈ st.fetches, p.1 ∈ st.visited) →
      ((crawlGo ext w base_url fe ph em d ss url st).1.fetches.map Prod.fst).Nodup ∧
        ∀ p ∈ (crawlGo ext w base_url fe ph em d ss url st).1.fetches,
          p.1 ∈ (crawlGo ext w base_url fe ph em d ss url st).1.visited := by
  intro d
  induction d with
  | zero => intro ss url st h; exact h
  | succ d ih =>
    intro ss url st h
    rw [crawlGo]
    by_cases hv : url ∈ st.visited
    · rw [if_pos hv]
      exact h
    · rw [if_neg hv]
      dsimp only
      have hnodup2 : ((st.fetches ++ [(url, d + 1)]).map Prod.fst).Nodup := by
        rw [List.map_append]
        simp only [List.map_cons, List.map_nil]
        rw [List.nodup_append]
        refine ⟨h.1, List.nodup_singleton url, ?_⟩
        intro a ha hb
        simp only [List.mem_singleton] at hb
        subst hb
        rcases List.mem_map.1 ha with ⟨p, hp, hfst⟩
        exact hv (hfst ▸ h.2 p hp)
      have hmem2 : ∀ p ∈ st.fetches ++ [(url, d + 1)], p.1 ∈ url :: st.visited := by
        intro p hp
        rcases List.mem_append.1 hp with hp1 | hp2
        · exact List.mem_cons_of_mem _ (h.2 p hp1)
        · simp only [List.mem_singleton] at hp2
          subst hp2
          exact List.mem_cons_self _ _
      split
      · exact ⟨hnodup2, hmem2⟩
      · set st2 : CrawlState :=
          { st with visited := url :: st.visited, fetches := st.fetches ++ [(url, d + 1)] }
          with hst2
        split
        · rename_i st5 e5 heq
          have hvis := crawlExtract_visited ph em ss url (fetch_html w url) st2
          have hfts := crawlExtract_fetches ph em ss url (fetch_html w url) st2
          rw [heq] at hvis hfts
          dsimp only at hvis hfts ⊢
          rw [hvis, hfts]
          exact ⟨hnodup2, hmem2⟩
        · rename_i st5 heq
          have hvis := crawlExtract_visited ph em ss url (fetch_html w url) st2
          have hfts := crawlExtract_fetches ph em ss url (fetch_html w url) st2
          rw [heq] at hvis hfts
          dsimp only at hvis hfts
          apply crawlFold_preserve ext w base_url fe ph em d
            (fun s => (s.fetches.map Prod.fst).Nodup ∧ ∀ p ∈ s.fetches, p.1 ∈ s.visited)
            (fun link s hs => ih none link s hs)
          dsimp only
          rw [hvis, hfts]
          exact ⟨hnodup2, hmem2⟩

/-- Depth bound of the crawl body: every entry the call adds to the
fetch log carries a remaining depth between 1 and the depth of the
call. -/
theorem crawlGo_fetch_bound (ext : String → List String) (w : String → Option String)
    (base_url : String) (fe ph em : Bool) :
    ∀ (d : Nat) (ss : Option String) (url : String) (st : CrawlState)
      (p : String × Nat), p ∈ (crawlGo ext w base_url fe ph em d ss url st).1.fetches →
      p ∈ st.fetches ∨ (1 ≤ p.2 ∧ p.2 ≤ d) := by
  intro d
  induction d with
  | zero => intro ss url st p hp; exact Or.inl hp
  | succ d ih =>
    intro ss url st p
    rw [crawlGo]
    by_cases hv : url ∈ st.visited
    · rw [if_pos hv]
      exact Or.inl
    · rw [if_neg hv]
      dsimp only
      have hbase : ∀ q ∈ st.fetches ++ [(url, d + 1)],
          q ∈ st.fetches ∨ (1 ≤ q.2 ∧ q.2 ≤ d + 1) := by
        intro q hq
        rcases List.mem_append.1 hq with hq1 | hq2
        · exact Or.inl hq1
        · simp only [List.mem_singleton] at hq2
          subst hq2
          exact Or.inr ⟨Nat.le_add_left 1 d, Nat.le_refl _⟩
      split
      · exact hbase p
      · set st2 : CrawlState :=
          { st with visited := url :: st.visited, fetches := st.fetches ++ [(url, d + 1)] }
          with hst2
        split
        · rename_i st5 e5 heq
          have hfts := crawlExtract_fetches ph em ss url (fetch_html w url) st2
          rw [heq] at hfts
          dsimp only at hfts ⊢
          rw [hfts]
          exact hbase p
        · rename_i st5 heq
          have hfts := crawlExtract_fetches ph em ss url (fetch_html w url) st2
          rw [heq] at hfts
          dsimp only at hfts
          revert p
          apply crawlFold_preserve ext w base_url fe ph em d
            (fun s => ∀ q ∈ s.fetches, q ∈ st.fetches ∨ (1 ≤ q.2 ∧ q.2 ≤ d + 1))
          · intro link s hs q hq
            rcases ih none link s q hq with hq1 | hq2
            · exact hs q hq1
            · exact Or.inr ⟨hq2.1, Nat.le_succ_of_le hq2.2⟩
          · dsimp only
            rw [hfts]
            exact hbase

/-- The crawl depends on the HTTP world only through fetch_html: two
worlds whose fetch_html functions agree produce identical runs. -/
theorem crawlGo_congr (ext : String → List String) (w1 w2 : String → Option String)
    (base_url : String) (fe ph em : Bool) (h : fetch_html w1 = fetch_html w2) :
    ∀ (d : Nat) (ss : Option String) (url : String) (st : CrawlState),
      crawlGo ext w1 base_url fe ph em d ss url st =
        crawlGo ext w2 base_url fe ph em d ss url st := by
  intro d
  induction d with
  | zero => intro ss url st; rfl
  | succ d ih =>
    intro ss url st
    rw [crawlGo, crawlGo]
    by_cases hv : url ∈ st.visited
    · rw [if_pos hv, if_pos hv]
    · rw [if_neg hv, if_neg hv]
      have hfu : fetch_html w1 url = fetch_html w2 url := congrFun h url
      dsimp only
      rw [hfu]
      simp only [ih]

/-- Membership characterization of the link fold of get_links. -/
theorem get_links_mem_aux (base : String) (fe : Bool) :
    ∀ (hrefs : List String) (acc : List String) (u : String),
      (u ∈ hrefs.foldl (fun links href =>
        if (fe || decide (netloc (urljoin base href) = netloc base)) = true then
          insertNew links (urljoin base href)
        else links) acc) ↔
      (u ∈ acc ∨ ((fe = true ∨ netloc u = netloc base) ∧
        ∃ href ∈ hrefs, urljoin base href = u)) := by
  intro hrefs
  induction hrefs with
  | nil =>
    intro acc u
    simp
  | cons h t ih =>
    intro acc u
    rw [List.foldl_cons, ih]
    by_cases hc : (fe || decide (netloc (urljoin base h) = netloc base)) = true
    · rw [if_pos hc, mem_insertNew]
      have hc2 : fe = true ∨ netloc (urljoin base h) = netloc base := by
        simpa using hc
      constructor
      · rintro ((hu | rfl) | ⟨hcu, href, hht, hj⟩)
        · exact Or.inl hu
        · refine Or.inr ⟨hc2, h, List.mem_cons_self _ _, rfl⟩
        · exact Or.inr ⟨hcu, href, List.mem_cons_of_mem _ hht, hj⟩
      · rintro (hu | ⟨hcu, href, hh, hj⟩)
        · exact Or.inl (Or.inl hu)
        · rcases List.mem_cons.1 hh with h1 | hht
          · subst h1
            exact Or.inl (Or.inr hj.symm)
          · exact Or.inr ⟨hcu, href, hht, hj⟩
    · rw [if_neg hc]
      have hc2 : fe = false ∧ ¬netloc (urljoin base h) = netloc base := by
        simpa using hc
      constructor
      · rintro (hu | ⟨hcu, href, hht, hj⟩)
        · exact Or.inl hu
        · exact Or.inr ⟨hcu, href, List.mem_cons_of_mem _ hht, hj⟩
      · rintro (hu | ⟨hcu, href, hh, hj⟩)
        · exact Or.inl hu
        · rcases List.mem_cons.1 hh with h1 | hht
          · subst h1
            rcases hcu with hfe | hnl
            · rw [hc2.1] at hfe
              exact absurd hfe (by simp)
            · subst hj
              exact absurd hnl hc2.2
          · exact Or.inr ⟨hcu, href, hht, hj⟩

/-! Claim theorems. -/

/-- C6 counterexample: the custom extractor is not total in the claimed
sense.  On the empty string the valid pattern x? returns a non-empty
result (one empty zero-width match, as re.findall does), and the
invalid pattern ( makes find_strings raise the re.error that re.compile
raises instead of returning a result. -/
theorem C6_extractor_totality_counterexample :
    find_strings "" "x?" = .ok [""]
    ∧ find_strings "some text" "(" = .error "missing ), unterminated subpattern" :=
  ⟨rfl, rfl⟩

/-- C6 amended: the phone and email extractors are total over any text
and return empty result sets on the empty string; the custom extractor
returns a result without error for every text whenever the configured
pattern compiles as a valid regular expression, while an invalid
pattern raises a compilation error and a valid pattern matching the
empty string may return a non-empty result on the empty string. -/
theorem C6_extractor_totality :
    find_phone_numbers "" = [] ∧ find_email_addresses "" = []
    ∧ ∀ (p : String) (r : Regex), compile p = .ok r →
        ∀ (t : String), ∃ l, find_strings t p = .ok l := by
  refine ⟨rfl, rfl, ?_⟩
  intro p r hp t
  refine ⟨(findall true r t.toList).map (fun m => String.mk m.consumed), ?_⟩
  unfold find_strings
  rw [hp]

/-- C6 witness: the amended totality applied to the valid pattern foo
on a concrete text. -/
theorem C6_extractor_totality_witness :
    ∃ l, find_strings "arbitrary page text" "foo" = .ok l :=
  C6_extractor_totality.2.2 "foo"
    (Regex.seq (.cls ⟨false, [('f', 'f')]⟩)
      (.seq (.cls ⟨false, [('o', 'o')]⟩) (.cls ⟨false, [('o', 'o')]⟩)))
    rfl "arbitrary page text"

/-- C7: every candidate the phone extractor returns has exactly 10 or
11 digits once non-digits are stripped; the digit run 5551234567
embedded in prose is returned as a candidate, and the text 123 yields
no candidate. -/
theorem C7_phone_digit_filter :
    (∀ (html c : String), c ∈ find_phone_numbers html →
      digitLen c = 10 ∨ digitLen c = 11)
    ∧ "5551234567" ∈ find_phone_numbers "Call 5551234567 today for a quote."
    ∧ find_phone_numbers "123" = [] := by
  refine ⟨?_, by decide, by decide⟩
  intro html c hc
  have key : ∀ x ∈ find_phone_numbers html, digitLen x = 10 ∨ digitLen x = 11 := by
    unfold find_phone_numbers
    apply foldl_preserve (P := fun acc => ∀ x ∈ acc, digitLen x = 10 ∨ digitLen x = 11)
    · intro b m hb x
      dsimp only
      split
      · rename_i hcond
        intro hx
        rcases mem_insertNew.1 hx with h1 | h2
        · exact hb x h1
        · subst h2
          exact hcond
      · intro hx
        exact hb x hx
    · intro x hx
      exact absurd hx (List.not_mem_nil x)
  exact key c hc

/-- C7 witness: the digit-count bound applied to a candidate extracted
from a concrete page. -/
theorem C7_phone_digit_filter_witness :
    digitLen "(555) 123-4567" = 10 ∨ digitLen "(555) 123-4567" = 11 :=
  C7_phone_digit_filter.1 "call (555) 123-4567 or 555.123.4567 now" "(555) 123-4567" (by decide)

/-- C8: the email extractor accepts user@example.com and rejects both
user@@example.com and user@example in surrounding text, the candidate
surviving the anchored second validation pass. -/
theorem C8_email_validation :
    "user@example.com" ∈ find_email_addresses "contact user@example.com for info"
    ∧ find_email_addresses "contact user@@example.com for info" = []
    ∧ find_email_addresses "contact user@example for info" = []
    ∧ reMatchFull emailValRegex "user@example.com" = true := by
  refine ⟨by decide, by decide, by decide, by decide⟩

/-- C9: a resolved reference is kept by the Link Resolver exactly when
external links are allowed or its host equals the base host; the result
collapses duplicates; and on the concrete example page with base host
a.com, the reference to b.com/x is excluded while a.com/y is included. -/
theorem C9_link_filter :
    (∀ (ext : String → List String) (html base_url : String) (follow_external : Bool)
      (u : String),
      u ∈ get_links ext html base_url follow_external ↔
        ((follow_external = true ∨ netloc u = netloc base_url) ∧
          ∃ href ∈ ext html, urljoin base_url href = u))
    ∧ (∀ (ext : String → List String) (html base_url : String) (follow_external : Bool),
        (get_links ext html base_url follow_external).Nodup)
    ∧ get_links extC9 "page" "https://a.com/" false = ["https://a.com/y"] := by
  refine ⟨?_, ?_, by decide⟩
  · intro ext html base_url follow_external u
    have h := get_links_mem_aux base_url follow_external (ext html) [] u
    simp only [List.not_mem_nil, false_or] at h
    exact h
  · intro ext html base_url follow_external
    unfold get_links
    dsimp only
    apply foldl_preserve (P := fun (l : List String) => l.Nodup)
    · intro b a hb
      dsimp only
      split
      · exact nodup_insertNew hb
      · exact hb
    · exact List.nodup_nil

/-- C9 witness: the membership characterization instantiated on the
concrete example page. -/
theorem C9_link_filter_witness :
    "https://a.com/y" ∈ get_links extC9 "page" "https://a.com/" false :=
  (C9_link_filter.1 extC9 "page" "https://a.com/" false "https://a.com/y").2
    ⟨Or.inr (by decide), "https://a.com/y", by decide, by decide⟩

/-- C1: in every crawl run the fetch log never contains the same URL
twice, every fetched URL is recorded in the visited set, and the
visited set is append-only across the whole traversal (no URL is ever
removed): a URL is fetched at most once per run however many pages link
to it and at whatever depth it is rediscovered. -/
theorem C1_url_fetched_at_most_once :
    ∀ (ext : String → List String) (w : String → Option String) (url base_url : String)
      (depth : Nat) (follow_external phone email : Bool) (search_string : Option String),
      (((crawl ext w url base_url depth follow_external phone email
          search_string).1.fetches.map Prod.fst).Nodup
        ∧ ∀ p ∈ (crawl ext w url base_url depth follow_external phone email
            search_string).1.fetches,
            p.1 ∈ (crawl ext w url base_url depth follow_external phone email
              search_string).1.visited)
      ∧ ∀ (d : Nat) (ss : Option String) (u : String) (st : CrawlState),
          st.visited ⊆
            (crawlGo ext w base_url follow_external phone email d ss u st).1.visited := by
  intro ext w url base_url depth fe ph em ss
  constructor
  · exact crawlGo_inv ext w base_url fe ph em depth ss url ⟨[], [], []⟩
      ⟨List.nodup_nil, fun p hp => absurd hp (List.not_mem_nil p)⟩
  · exact fun d ss2 u st => crawlGo_visited_mono ext w base_url fe ph em d ss2 u st

/-- C1 witness: the at-most-once log and the append-only visited set on
the concrete scenario run. -/
theorem C1_url_fetched_at_most_once_witness :
    ((crawl extC3 wC3 "https://a.com/" "https://a.com/" 2 false false false
        none).1.fetches.map Prod.fst).Nodup
    ∧ "https://a.com/old" ∈ (crawlGo extC3 wC3 "https://a.com/" false false false 1 none
        "https://a.com/p1" ⟨["https://a.com/old"], [], []⟩).1.visited :=
  ⟨(C1_url_fetched_at_most_once extC3 wC3 "https://a.com/" "https://a.com/" 2 false false
      false none).1.1,
    (C1_url_fetched_at_most_once extC3 wC3 "https://a.com/" "https://a.com/" 2 false false
      false none).2 1 none "https://a.com/p1" ⟨["https://a.com/old"], [], []⟩ (by decide)⟩

/-- C2: a task with remaining depth 0 performs no fetch and leaves the
state untouched, and every fetch performed by a run configured with
maxDepth d happens at a remaining depth between 1 and d; since a URL
discovered after k link hops is processed at remaining depth d - k,
no URL discovered at path length greater than d is ever fetched. -/
theorem C2_depth_bound :
    ∀ (ext : String → List String) (w : String → Option String) (base_url : String)
      (follow_external phone email : Bool),
      (∀ (ss : Option String) (url : String) (st : CrawlState),
        crawlGo ext w base_url follow_external phone email 0 ss url st = (st, none))
      ∧ ∀ (d : Nat) (ss : Option String) (url : String),
          ∀ p ∈ (crawl ext w url base_url d follow_external phone email ss).1.fetches,
            1 ≤ p.2 ∧ p.2 ≤ d := by
  intro ext w base_url fe ph em
  refine ⟨fun ss url st => rfl, ?_⟩
  intro d ss url p hp
  rcases crawlGo_fetch_bound ext w base_url fe ph em d ss url ⟨[], [], []⟩ p hp with h1 | h2
  · exact absurd h1 (List.not_mem_nil p)
  · exact h2

/-- C2 witness: the depth bound applied to the child fetch of the
concrete scenario run with maxDepth 2. -/
theorem C2_depth_bound_witness :
    1 ≤ ("https://a.com/p1", 1).2 ∧ ("https://a.com/p1", 1).2 ≤ 2 :=
  (C2_depth_bound extC3 wC3 "https://a.com/" false false false).2 2 none "https://a.com/"
    ("https://a.com/p1", 1) (by decide)

/-- C3 counterexample: in the spec scenario run (seed https://a.com/,
maxDepth 1, seed page linking to p1 twice and p2 once) the number of
fetches beyond the seed is not two: child tasks are created at
remaining depth 0 and the terminal condition stops them before any
fetch, so the seed is the only URL fetched. -/
theorem C3_two_fetches_counterexample :
    ((crawl extC3 wC3 "https://a.com/" "https://a.com/" 1 false false false
      none).1.fetches.filter (fun p => p.1 != "https://a.com/")).length ≠ 2 := by
  decide

/-- C3 amended: in the scenario with maxDepth 1 the seed is the only
URL fetched and the only URL visited, the duplicate p1 collapsing in
the link set and the child tasks being skipped at remaining depth 0
without fetch; with maxDepth 2 the run fetches exactly p1 once and p2
once beyond the seed, each at remaining depth 1, and none of the links
on p1 or p2 is followed. -/
theorem C3_depth_one_scenario :
    (crawl extC3 wC3 "https://a.com/" "https://a.com/" 1 false false false none).1.fetches
      = [("https://a.com/", 1)]
    ∧ (crawl extC3 wC3 "https://a.com/" "https://a.com/" 1 false false false none).1.visited
      = ["https://a.com/"]
    ∧ get_links extC3 "A0" "https://a.com/" false = ["https://a.com/p1", "https://a.com/p2"]
    ∧ (crawl extC3 wC3 "https://a.com/" "https://a.com/" 2 false false false none).1.fetches
      = [("https://a.com/", 2), ("https://a.com/p1", 1), ("https://a.com/p2", 1)]
    ∧ "https://a.com/q1" ∉
        (crawl extC3 wC3 "https://a.com/" "https://a.com/" 2 false false false none).1.visited
    ∧ "https://a.com/q2" ∉
        (crawl extC3 wC3 "https://a.com/" "https://a.com/" 2 false false false none).1.visited := by
  refine ⟨by decide, by decide, by decide, by decide, by decide, by decide⟩

/-- C4 counterexample: the crawl of the world where the seed page links
to the page at /sub/p whose markup H1 holds the single relative
reference x.  That page is fetched, yet the URL obtained by resolving x
against the page URL, https://a.com/sub/x, is never visited (although
fetchable in this world); instead https://a.com/x, the resolution
against the seed URL, is fetched: resolution is not performed against
the page URL. -/
theorem C4_page_relative_resolution_counterexample :
    ("https://a.com/sub/p", 2) ∈
      (crawl extC4 wC4 "https://a.com/" "https://a.com/" 3 false false false none).1.fetches
    ∧ extC4 "H1" = ["x"]
    ∧ urljoin "https://a.com/sub/p" "x" = "https://a.com/sub/x"
    ∧ wC4 "https://a.com/sub/x" = some "H2x"
    ∧ "https://a.com/sub/x" ∉
        (crawl extC4 wC4 "https://a.com/" "https://a.com/" 3 false false false none).1.visited
    ∧ ("https://a.com/x", 1) ∈
        (crawl extC4 wC4 "https://a.com/" "https://a.com/" 3 false false false none).1.fetches := by
  refine ⟨by decide, by decide, by decide, rfl, by decide, by decide⟩

/-- C4 amended: for every page fetched during a crawl the Link Resolver
resolves each anchor reference against the base_url argument, which the
engine passes as the seed URL to every recursive call: the relative
reference x on the page at https://a.com/sub/p resolves to the
seed-based https://a.com/x, which is the URL fetched next. -/
theorem C4_seed_relative_resolution :
    urljoin "https://a.com/" "x" = "https://a.com/x"
    ∧ get_links extC4 "H1" "https://a.com/" false = ["https://a.com/x"]
    ∧ (crawl extC4 wC4 "https://a.com/" "https://a.com/" 3 false false false none).1.fetches
      = [("https://a.com/", 3), ("https://a.com/sub/p", 2), ("https://a.com/x", 1)] := by
  refine ⟨by decide, by decide, by decide⟩

/-- C5: evaluation of the code at the failing input of the reported
bug.  With the pattern foo configured, the child page is fetched and
its text S1 foo S1 contains a match, yet the run reports no findings at
all: the recursive call omits the search_string argument, so the custom
extractor runs only on the seed page. -/
theorem C5_search_string_not_propagated :
    (crawl extC5 wC5 "https://s.com/" "https://s.com/" 2 false false false
      (some "foo")).1.findings = []
    ∧ ("https://s.com/c", 1) ∈
        (crawl extC5 wC5 "https://s.com/" "https://s.com/" 2 false false false
          (some "foo")).1.fetches
    ∧ fetch_html wC5 "https://s.com/c" = "S1 foo S1"
    ∧ find_strings "S1 foo S1" "foo" = .ok ["foo"] := by
  refine ⟨by decide, by decide, rfl, rfl⟩

/-- C10: a successfully fetched empty body is indistinguishable from a
failed fetch.  A task whose URL answers with the empty string marks the
URL visited and logs the fetch but reports no findings and follows no
links, exactly the outcome of a task whose fetch fails; and an entire
run over a world with an empty body at some URL equals the run over the
world failing at that URL. -/
theorem C10_empty_body_as_failure :
    ∀ (ext : String → List String) (w : String → Option String) (base_url : String)
      (follow_external phone email : Bool) (d : Nat) (ss : Option String) (url : String)
      (st : CrawlState),
      (w url = some "" → url ∉ st.visited →
        crawlGo ext w base_url follow_external phone email (d + 1) ss url st =
          ({ st with visited := url :: st.visited,
                     fetches := st.fetches ++ [(url, d + 1)] }, none))
      ∧ (w url = none → url ∉ st.visited →
        crawlGo ext w base_url follow_external phone email (d + 1) ss url st =
          ({ st with visited := url :: st.visited,
                     fetches := st.fetches ++ [(url, d + 1)] }, none))
      ∧ (w url = some "" →
        ∀ (d2 : Nat) (ss2 : Option String) (u2 : String) (st2 : CrawlState),
          crawlGo ext w base_url follow_external phone email d2 ss2 u2 st2 =
            crawlGo ext (wUpdate w url none) base_url follow_external phone email
              d2 ss2 u2 st2) := by
  intro ext w base_url fe ph em d ss url st
  refine ⟨?_, ?_, ?_⟩
  · intro hw hv
    have hf : fetch_html w url = "" := by unfold fetch_html; rw [hw]
    rw [crawlGo, if_neg hv]
    dsimp only
    rw [hf, if_pos rfl]
  · intro hw hv
    have hf : fetch_html w url = "" := by unfold fetch_html; rw [hw]
    rw [crawlGo, if_neg hv]
    dsimp only
    rw [hf, if_pos rfl]
  · intro hw
    apply crawlGo_congr
    funext u
    unfold fetch_html wUpdate
    by_cases hu : u = url
    · subst hu
      rw [hw, if_pos rfl]
    · rw [if_neg hu]

/-- C10 witness: the empty-body outcome and the failed-fetch outcome on
a concrete one-URL world. -/
theorem C10_empty_body_as_failure_witness :
    crawlGo extC5 (fun u => if u = "https://s.com/" then some "" else none) "https://s.com/"
      false false false 1 none "https://s.com/" ⟨[], [], []⟩ =
      (⟨["https://s.com/"], [("https://s.com/", 1)], []⟩, none) :=
  (C10_empty_body_as_failure extC5 (fun u => if u = "https://s.com/" then some "" else none)
    "https://s.com/" false false false 0 none "https://s.com/" ⟨[], [], []⟩).1 (by decide)
    (by decide)
